import Mathlib

/-!
Shallow embedding of the STEER-evaluation inference utilities:
`src/utils/inference_utils.py` and `src/utils/model_utils.py`.

Python dictionaries are modelled as insertion-ordered association lists,
Python exceptions as `Except`, and the handful of helper functions whose
source lives in modules that are not part of the reviewed material
(`utils.utils`, `utils.question_utils`, ...) are either taken as explicit
function parameters (oracles) or modelled from the specification; every
such modelling carries a doc comment saying so.
-/

/-- Python exception kinds that the embedded code can raise. -/
inductive PyErr
  | valueError
  | keyError
  | attributeError
  | indexError
  | fileNotFoundError
  | other (msg : String)
deriving DecidableEq

/-- Python `s.upper()` for the ASCII strings used by the code. -/
def pyUpper (s : String) : String := String.mk (s.data.map Char.toUpper)

/-- Python `s.lower()` for the ASCII strings used by the code. -/
def pyLower (s : String) : String := String.mk (s.data.map Char.toLower)

/-- Python `s.startswith(p)`: `p` is a prefix of `s`. -/
def pyStartsWith (s p : String) : Bool := p.data.isPrefixOf s.data

/-- Python dict assignment `d[k] = v` on the association-list model of a dict:
update in place when the key exists (keeping insertion order), otherwise
append a new entry at the end. -/
def dictSet : List (String × ℚ) → String → ℚ → List (String × ℚ)
  | [], k, v => [(k, v)]
  | p :: rest, k, v => if p.1 = k then (k, v) :: rest else p :: dictSet rest k v

/-- Lookup in the association-list model of a Python dict. -/
def alookup : List (String × ℚ) → String → Option ℚ
  | [], _ => none
  | p :: rest, k => if p.1 = k then some p.2 else alookup rest k

/-- One top-logprob candidate of the first generated token, as consumed by
`GPTClient.get_answer` (`src/utils/model_utils.py`).  The Python value
`exp(logprob) * 100` stored in the accumulator is a strictly monotone
function of `logprob`, so the accumulator here stores the logprob itself:
key sets, insertion order, the break test (which only counts entries) and
the final argmax are all unchanged by that reparametrisation. -/
structure Cand where
  token : String
  logprob : ℚ
deriving DecidableEq

/-- Whether the inner loop of `get_answer` finds any valid option token that
starts with the uppercased candidate token
(`valid_token.startswith(logprob.token.upper())`). -/
def candMatches (valids : List String) (c : Cand) : Bool :=
  valids.any (fun vt => pyStartsWith vt (pyUpper c.token))

/-- The inner `for valid_token in valid_tokens` loop of `get_answer`: for every
valid token that starts with the uppercased candidate token, assign
(`output[logprob.token] = exp(logprob.logprob)*100`, represented by the
logprob) under the candidate's own token. -/
def innerAssign (valids : List String) (c : Cand) (out : List (String × ℚ)) :
    List (String × ℚ) :=
  valids.foldl
    (fun acc vt =>
      if pyStartsWith vt (pyUpper c.token) then dictSet acc c.token c.logprob else acc)
    out

/-- The outer `for logprob in top_responses` loop of `get_answer`, returning the
accumulator together with the number of candidates consumed before the loop
ended.  The loop breaks as soon as `len(output) == len(valid_tokens)`. -/
def answerScan (valids : List String) : List Cand → List (String × ℚ) →
    List (String × ℚ) × Nat
  | [], out => (out, 0)
  | c :: rest, out =>
    let out' := innerAssign valids c out
    if out'.length = valids.length then (out', 1)
    else
      let r := answerScan valids rest out'
      (r.1, r.2 + 1)

/-- The scan of `get_answer` started on the empty accumulator, as in the source
(`output = defaultdict(lambda: 0)`). -/
def answerScanRun (valids : List String) (cands : List Cand) :
    List (String × ℚ) × Nat :=
  answerScan valids cands []

/-- Modelled from the spec: `normalize_dict` (from `utils.utils`, whose source is
not part of the reviewed material) rescales a mapping of non-negative values so
that they form a proportional distribution summing to 100, and keeps an empty
mapping empty.  The accumulator here is represented by logprobs; rescaling the
realized values `exp(logprob)*100` by one positive factor changes neither the
key set, nor the insertion order, nor the relative order of the values, so on
this representation normalization is the identity. -/
def normalize_dict (d : List (String × ℚ)) : List (String × ℚ) := d

/-- Python `max(output, key=output.get)`: the first key attaining the maximal
value, or `none` for an empty mapping (where Python's `max` raises
`ValueError`).  Values are represented by logprobs, and `exp(logprob)*100`
is strictly monotone in the logprob, so comparing logprobs selects the same
key as comparing the realized values. -/
def pyMaxPair : List (String × ℚ) → Option (String × ℚ)
  | [] => none
  | p :: rest => some (rest.foldl (fun b q => if b.2 < q.2 then q else b) p)

/-- Embedding of `GPTClient.get_answer` (`src/utils/model_utils.py`, lines
104-113): scan the top-logprob candidates of the first generated token,
normalize the accumulator, and return the argmax key with the full
distribution; Python's `max` over an empty mapping raises `ValueError`. -/
def get_answer (valid_tokens : List String) (top_responses : List Cand) :
    Except PyErr (String × List (String × ℚ)) :=
  let scanned := answerScanRun valid_tokens top_responses
  let out := normalize_dict scanned.1
  match pyMaxPair out with
  | none => .error .valueError
  | some b => .ok (b.1, out)

/-- Dialogue context: a list of `(role, content)` turns, the association-list
model of the Python `[{'role': ..., 'content': ...}, ...]` structure. -/
def Chat : Type := List (String × String)

/-- Probability distribution as returned by an answer step: keys are token
texts, values represent the (logprob-parametrised) weights. -/
def ProbDist : Type := List (String × ℚ)

/-- One parsed result `(explanation, answer, probabilities)` appended to
`parsed_results` in `get_response` / `get_response_hf`. -/
structure PRec where
  explanation : String
  answer : String
  probs : List (String × ℚ)
deriving DecidableEq

/-- A cell of the `np.array(parsed_results).T.tolist()` return value, which
mixes strings (explanations, answers) and distributions. -/
inductive RCell
  | str (s : String)
  | dist (d : List (String × ℚ))
deriving DecidableEq

/-- Python `np.array(parsed_results).T.tolist()`: the empty list when no
record was parsed, otherwise the three parallel rows (explanations, answers,
distributions). -/
def pyTranspose (parsed : List PRec) : List (List RCell) :=
  match parsed with
  | [] => []
  | _ =>
    [parsed.map (fun r => RCell.str r.explanation),
     parsed.map (fun r => RCell.str r.answer),
     parsed.map (fun r => RCell.dist r.probs)]

/-- One backend call issued by the hosted-API engine `get_response`:
a constrained answer call (`client.get_answer`) with its valid tokens,
context and `top_logprobs` argument, or a free-text explanation call
(`client.get_explanation`). -/
inductive ClientCall
  | answer (validTokens : List String) (ctx : List (String × String)) (topLogprobs : Nat)
  | explanation (ctx : List (String × String))
deriving DecidableEq

/-- One backend call issued by the local engine `get_response_hf`:
an `HF_RESPONSE[mode]` answer call with the options it receives, a free-text
explanation call, or the `get_explanation_probs` re-scoring call. -/
inductive HfCall
  | mcCall (mode : String) (prompt : String) (options : List String)
  | explCall (prompt : String)
  | gepCall (output : String) (options : List String)
deriving DecidableEq

/-- Uppercase alphabet, `OPTIONS = list(ascii_uppercase)` from
`src/utils/inference_utils.py`. -/
def OPTIONS : List Char := "ABCDEFGHIJKLMNOPQRSTUVWXYZ".data

/-- Modelled from the spec: `get_option_letters` (from `utils.utils`, whose
source is not part of the reviewed material) returns, per question, the list
of valid uppercase letters corresponding to that question's option count. -/
def get_option_letters (options_lst : List (List String)) : List (List String) :=
  options_lst.map (fun opts => (OPTIONS.take opts.length).map String.singleton)

/-- The context-extension step of `get_response`
(`src/utils/inference_utils.py`, lines 65-68): append the question as a new
user turn when the reconstructed context has more than one turn, otherwise
concatenate it onto the single turn's content with a newline.  (Python would
raise on an empty context; the empty case below is unreachable for the
non-empty contexts used in the theorems.) -/
def appendToCtx (ctx : List (String × String)) (q : String) : List (String × String) :=
  if 1 < ctx.length then ctx ++ [("user", q)]
  else
    match ctx with
    | [] => []
    | m :: rest => (m.1, m.2 ++ "\n" ++ q) :: rest

/-- Loop body of `get_response` (`src/utils/inference_utils.py`, lines 57-95),
with the missing module pieces taken as parameters: `answerO`/`explO` are the
`GPTClient` calls, `parseR` is `parse_response` and `recon` is
`reconstruct_context` (prefix, prior questions, prior outputs, chat type).
The state is `(outputs, parsed_results, calls)`, where `calls` traces the
backend calls in order. -/
def respGo (answerO : List String → List (String × String) → String × List (String × ℚ))
    (explO : List (String × String) → String)
    (parseR : String → List (List String) → Nat → String × String)
    (recon : String → List String → List String → String → List (String × String))
    (pfx chatType qt : String) (opts : List (List String)) (allQs : List String) :
    Nat → List String → List String → List PRec → List ClientCall →
      List PRec × List String × List ClientCall
  | _, [], outs, parsed, calls => (parsed, outs, calls)
  | i, q :: rest, outs, parsed, calls =>
    let ctx := appendToCtx (recon pfx (allQs.take i) outs chatType) q
    if qt = "mc" then
      let vts := (get_option_letters opts).getD i []
      let tl := (opts.getD i []).length * 2
      let r := answerO vts ctx
      respGo answerO explO parseR recon pfx chatType qt opts allQs (i + 1) rest
        (outs ++ [r.1]) (parsed ++ [⟨"", r.1, r.2⟩]) (calls ++ [.answer vts ctx tl])
    else if qt = "explanation" then
      let out := explO ctx
      let pr := parseR out opts i
      respGo answerO explO parseR recon pfx chatType qt opts allQs (i + 1) rest
        (outs ++ [out]) (parsed ++ [⟨pr.1, pr.2, []⟩]) (calls ++ [.explanation ctx])
    else if i % 2 = 0 ∧ (qt = "sequential-hidden" ∨ qt = "sequential-shown") then
      let out := explO ctx
      respGo answerO explO parseR recon pfx chatType qt opts allQs (i + 1) rest
        (outs ++ [out]) parsed (calls ++ [.explanation ctx])
    else if i % 2 = 1 ∧ (qt = "sequential-hidden" ∨ qt = "sequential-shown") then
      let vts := (get_option_letters opts).getD (i / 2) []
      let tl := (opts.getD (i / 2) []).length * 2
      let r := answerO vts ctx
      respGo answerO explO parseR recon pfx chatType qt opts allQs (i + 1) rest
        (outs ++ [r.1]) (parsed ++ [⟨outs.getD (i - 1) "", r.1, r.2⟩])
        (calls ++ [.answer vts ctx tl])
    else
      respGo answerO explO parseR recon pfx chatType qt opts allQs (i + 1) rest
        outs parsed calls

/-- The `parsed_results` list produced by `get_response`. -/
def getResponseParsed (answerO : List String → List (String × String) → String × List (String × ℚ))
    (explO : List (String × String) → String)
    (parseR : String → List (List String) → Nat → String × String)
    (recon : String → List String → List String → String → List (String × String))
    (pfx chatType qt : String) (opts : List (List String)) (qs : List String) : List PRec :=
  (respGo answerO explO parseR recon pfx chatType qt opts qs 0 qs [] [] []).1

/-- The ordered backend-call trace of `get_response`. -/
def getResponseCalls (answerO : List String → List (String × String) → String × List (String × ℚ))
    (explO : List (String × String) → String)
    (parseR : String → List (List String) → Nat → String × String)
    (recon : String → List String → List String → String → List (String × String))
    (pfx chatType qt : String) (opts : List (List String)) (qs : List String) : List ClientCall :=
  (respGo answerO explO parseR recon pfx chatType qt opts qs 0 qs [] [] []).2.2

/-- The return value of `get_response`, `np.array(parsed_results).T.tolist()`. -/
def getResponseResult (answerO : List String → List (String × String) → String × List (String × ℚ))
    (explO : List (String × String) → String)
    (parseR : String → List (List String) → Nat → String × String)
    (recon : String → List String → List String → String → List (String × String))
    (pfx chatType qt : String) (opts : List (List String)) (qs : List String) : List (List RCell) :=
  pyTranspose (getResponseParsed answerO explO parseR recon pfx chatType qt opts qs)

/-- Loop body of `get_response_hf` (`src/utils/inference_utils.py`, lines
97-134), with the missing pieces as parameters: `hfM mode prompt options` is
`HF_RESPONSE[mode]` for the answer modes, `hfE` is `HF_RESPONSE['explanation']`,
`fal` is `find_answer_letter`, `gep` is `get_explanation_probs`, `appendQ` is
`append_question` and `recon` is `reconstruct_context`. -/
def hfGo (hfM : String → String → List String → String × List (String × ℚ))
    (hfE : String → String)
    (fal : String → String)
    (gep : List (String × String) → String → List String → String × List (String × ℚ))
    (appendQ : List (String × String) → String → String → String)
    (recon : String → List String → List String → String → List (String × String))
    (pfx chatType qt : String) (opts : List (List String)) (allQs : List String) :
    Nat → List String → List String → List PRec → List HfCall →
      List PRec × List String × List HfCall
  | _, [], outs, parsed, calls => (parsed, outs, calls)
  | i, q :: rest, outs, parsed, calls =>
    let ctx := recon pfx (allQs.take i) outs chatType
    let prompt := appendQ ctx q chatType
    if qt = "mc" ∨ qt = "mc-separate" then
      let r := hfM qt prompt (opts.getD i [])
      hfGo hfM hfE fal gep appendQ recon pfx chatType qt opts allQs (i + 1) rest
        (outs ++ [r.1]) (parsed ++ [⟨"", r.1, r.2⟩]) (calls ++ [.mcCall qt prompt (opts.getD i [])])
    else if qt = "explanation" then
      let out := hfE prompt
      let letterGuess := fal out
      let g := gep ctx out (opts.getD i [])
      hfGo hfM hfE fal gep appendQ recon pfx chatType qt opts allQs (i + 1) rest
        (outs ++ [out]) (parsed ++ [⟨out, letterGuess, g.2⟩])
        (calls ++ [.explCall prompt, .gepCall out (opts.getD i [])])
    else if i % 2 = 0 ∧ (qt = "sequential-hidden" ∨ qt = "sequential-shown") then
      let out := hfE prompt
      hfGo hfM hfE fal gep appendQ recon pfx chatType qt opts allQs (i + 1) rest
        (outs ++ [out]) parsed (calls ++ [.explCall prompt])
    else if i % 2 = 1 ∧ (qt = "sequential-hidden" ∨ qt = "sequential-shown") then
      let r := hfM "mc" prompt (opts.getD i [])
      hfGo hfM hfE fal gep appendQ recon pfx chatType qt opts allQs (i + 1) rest
        (outs ++ [r.1]) (parsed ++ [⟨outs.getD (i - 1) "", r.1, r.2⟩])
        (calls ++ [.mcCall "mc" prompt (opts.getD i [])])
    else
      hfGo hfM hfE fal gep appendQ recon pfx chatType qt opts allQs (i + 1) rest
        outs parsed calls

/-- The `parsed_results` list produced by `get_response_hf`. -/
def getResponseHfParsed (hfM : String → String → List String → String × List (String × ℚ))
    (hfE : String → String) (fal : String → String)
    (gep : List (String × String) → String → List String → String × List (String × ℚ))
    (appendQ : List (String × String) → String → String → String)
    (recon : String → List String → List String → String → List (String × String))
    (pfx chatType qt : String) (opts : List (List String)) (qs : List String) : List PRec :=
  (hfGo hfM hfE fal gep appendQ recon pfx chatType qt opts qs 0 qs [] [] []).1

/-- The ordered backend-call trace of `get_response_hf`. -/
def getResponseHfCalls (hfM : String → String → List String → String × List (String × ℚ))
    (hfE : String → String) (fal : String → String)
    (gep : List (String × String) → String → List String → String × List (String × ℚ))
    (appendQ : List (String × String) → String → String → String)
    (recon : String → List String → List String → String → List (String × String))
    (pfx chatType qt : String) (opts : List (List String)) (qs : List String) : List HfCall :=
  (hfGo hfM hfE fal gep appendQ recon pfx chatType qt opts qs 0 qs [] [] []).2.2

/-- Question types of the orchestrator's default parameter grid
(`eval_models`, `src/utils/inference_utils.py`, lines 210-240). -/
def default_question_types : List String := ["mc", "mc-separate"]

/-- Scoring helpers used by `create_results_dict` whose source
(`utils.response_utils`, `utils.question_utils`) is not part of the reviewed
material; they are passed as explicit functions. -/
structure ScoreFns where
  getCorrect : String → String → ℚ
  getRandomAcc : String → ℚ
  getTrueLabels : String → List ℚ
  convertProbs : List (String × ℚ) → Nat → List (List Nat) → List ℚ
  computeEce : List ℚ → List ℚ → ℚ

/-- One results record (a Python dict): the fields written by
`create_results_dict` plus the pre-existing parameter entries of
`result_params` (num_shots, question_type, domain, ..., which
`create_results_dict` leaves untouched). -/
structure ResultsRow where
  params : List (String × String)
  task_name : String
  model : String
  question_id : String
  permuted_answer : String
  model_answer : String
  model_explanation : String
  probabilities : List (String × ℚ)
  accuracy : ℚ
  normalized_accuracy : ℚ
  expected_calibration : ℚ
deriving DecidableEq

/-- Embedding of `create_results_dict` (`src/utils/inference_utils.py`, lines
153-171).  In Python, `results = params` binds `results` to the very dict
object that was passed in and then mutates it in place; this function computes
the mutated value of that dict, and the caller below models the reference
semantics. -/
def create_results_dict (S : ScoreFns) (task_name model_name base_id : String)
    (sub_id : Nat) (permuted_answer model_answer model_explanation : String)
    (probabilities : List (String × ℚ)) (permutations : List (List Nat))
    (params : ResultsRow) : ResultsRow :=
  let qid := base_id ++ "_" ++ toString sub_id
  let acc := S.getCorrect qid permuted_answer
  { params with
    task_name := task_name
    model := model_name
    question_id := qid
    permuted_answer := permuted_answer
    model_answer := model_answer
    model_explanation := model_explanation
    probabilities := probabilities
    accuracy := acc
    normalized_accuracy := acc - S.getRandomAcc qid
    expected_calibration :=
      S.computeEce (S.convertProbs probabilities sub_id permutations) (S.getTrueLabels qid) }

/-- Heap of Python dict objects, addressed by allocation index: the mutable
store needed to model Python's reference semantics for the results dicts. -/
def Store : Type := Nat → ResultsRow

/-- Write one heap cell. -/
def storeSet (h : Store) (a : Nat) (v : ResultsRow) : Store :=
  fun a' => if a' = a then v else h a'

/-- Embedding of the results list comprehension of `eval_models`
(`src/utils/inference_utils.py`, lines 309-320): `result_params` is one dict
object living at address `addr`; every iteration calls `create_results_dict`
with that same object, which mutates it in place and returns the same
reference, so the comprehension collects one reference per answered
sub-question.  Returns the final heap together with the list of collected
references. -/
def buildResultsRefs (S : ScoreFns) (task_name model_name base_id : String)
    (permuted_answers model_answers model_explanations : List String)
    (probabilities : List (List (String × ℚ))) (permutations : List (List Nat))
    (addr : Nat) (h : Store) : Store × List Nat :=
  (List.range permuted_answers.length).foldl
    (fun st i =>
      let d := create_results_dict S task_name model_name base_id i
        (permuted_answers.getD i "") (model_answers.getD i "")
        (model_explanations.getD i "") (probabilities.getD i []) permutations
        (st.1 addr)
      (storeSet st.1 addr d, st.2 ++ [addr]))
    (h, [])

/-- Materialization of the records as `pd.DataFrame.from_records` sees them:
each collected reference is dereferenced in the final heap. -/
def materializeRows (st : Store × List Nat) : List ResultsRow :=
  st.2.map st.1

/-- Trivial scoring functions, enough to evaluate the aggregation at a
concrete input. -/
def demoScores : ScoreFns :=
  ⟨fun _ _ => 0, fun _ => 0, fun _ => [], fun _ _ _ => [], fun _ _ => 0⟩

/-- A concrete initial `result_params` dict (parameter entries only, the other
fields not yet written). -/
def demoRow : ResultsRow :=
  ⟨[("num_shots", "0"), ("question_type", "mc")], "", "", "", "", "", "", [], 0, 0, 0⟩

/-- Log line `f"Attempt X failed: e"` of the backoff decorator. -/
def attemptFailMsg (k : Nat) (e : String) : String :=
  "Attempt " ++ toString (k + 1) ++ " failed: " ++ e

/-- Error text of a failed call (used only to name the logged exception). -/
def exceptErr {α : Type} : Except String α → String
  | .error e => e
  | .ok _ => ""

/-- Recursion of the `wrapper` loop of `exponential_backoff_decorator`
(`src/utils/inference_utils.py`, lines 36-55): `r` is the remaining retry
budget and `k` the number of attempts already made.  Returns the wrapped
call's result (`none` when the budget is exhausted), the number of
invocations performed, the list of sleep durations
(`base_delay * 2 ** retries + uniform(0, 1)`, where `retries` has already
been incremented when the sleep happens), and the log lines (the
per-attempt failure lines and the final failure line; the purely cosmetic
"Retrying in ... seconds" line is elided). -/
def backoffAux {α : Type} (f : Nat → Except String α) (base : ℚ) (u : Nat → ℚ) :
    Nat → Nat → Option α × Nat × List ℚ × List String
  | 0, _ => (none, 0, [], ["Max retries reached, operation failed."])
  | r + 1, k =>
    match f k with
    | .ok v => (some v, 1, [], [])
    | .error e =>
      let rest := backoffAux f base u r (k + 1)
      (rest.1, rest.2.1 + 1, (base * 2 ^ (k + 1) + u k) :: rest.2.2.1,
        attemptFailMsg k e :: rest.2.2.2)

/-- One run of a function wrapped by
`exponential_backoff_decorator(max_retries, base_delay)`: `f k` is the outcome
of the `(k+1)`-st invocation of the wrapped call, `u k` the `uniform(0, 1)`
draw after it fails. -/
def exponential_backoff_run {α : Type} (max_retries : Nat) (base_delay : ℚ)
    (f : Nat → Except String α) (u : Nat → ℚ) :
    Option α × Nat × List ℚ × List String :=
  backoffAux f base_delay u max_retries 0

/-- Weight dtype selected by `build_kwargs`. -/
inductive TorchDtype
  | float32
  | float16
deriving DecidableEq

/-- The loading-options structure built by `build_kwargs`
(`src/utils/model_utils.py`): dtype, optional device map, optional per-device
memory caps (device index, cap string). -/
structure Kwargs where
  torch_dtype : TorchDtype
  device_map : Option String := none
  max_memory : Option (List (Nat × String)) := none
deriving DecidableEq

/-- Python `int(q)` for the non-negative free-memory quantities used here
(truncation toward zero). -/
def pyInt (q : ℚ) : Int :=
  if 0 ≤ q then ⌊q⌋ else -⌊-q⌋

/-- Embedding of `build_kwargs` (`src/utils/model_utils.py`, lines 145-161).
`gpuMem i` models `get_gpu_memory(num_gpus)[i]` (from `utils.utils`, absent
from the reviewed material; per the spec it is the queried free memory of
device `i` in GiB). -/
def build_kwargs (device : String) (num_gpus : Nat) (max_gpu_mem : Option String)
    (gpuMem : Nat → ℚ) : Except PyErr Kwargs :=
  if device = "cpu" then
    .ok { torch_dtype := .float32 }
  else if device = "cuda" then
    let kw : Kwargs := { torch_dtype := .float16 }
    let kw :=
      if num_gpus ≠ 1 then
        let kw := { kw with device_map := some "auto" }
        match max_gpu_mem with
        | none =>
          let kw := { kw with device_map := some "sequential" }
          let mems := (List.range num_gpus).map
            (fun i => (i, toString (pyInt (gpuMem i * (85 / 100))) ++ "GiB"))
          { kw with max_memory := some mems }
        | some m =>
          { kw with max_memory := some ((List.range num_gpus).map (fun i => (i, m))) }
      else kw
    .ok kw
  else .error (.other ("Invalid device: " ++ device))

/-- Python `os.path.join(a, b)` for the relative paths used here. -/
def pathJoin (a b : String) : String :=
  if a = "" ∨ a.endsWith "/" then a ++ b else a ++ "/" ++ b

/-- Embedding of `load_model_tokenizer` (`src/utils/model_utils.py`, lines
163-178).  `listdir` models `os.listdir` (it can raise), `loadModelFn` models
`load_model` with the already-resolved checkpoint path (`.error` models an
exception escaping `load_model`, `.ok none` its own `(False, False)` return,
`.ok (some m)` a successful load).  The overall result is `.error e` when an
exception propagates out of `load_model_tokenizer`, `.ok none` for the
`(False, False)` sentinel, and `.ok (some (m, moved))` on success, where
`moved` records whether the single-accelerator `model.to(device)` move ran.
Faithful to the source, the `snapshots` resolution happens before the
`try` block. -/
def load_model_tokenizer (α : Type) (listdir : String → Except PyErr (List String))
    (loadModelFn : String → Kwargs → Except PyErr (Option α))
    (gpuMem : Nat → ℚ) (model_path device : String) (num_gpus : Nat)
    (max_gpu_mem : Option String) : Except PyErr (Option (α × Bool)) :=
  match build_kwargs device num_gpus max_gpu_mem gpuMem with
  | .error e => .error e
  | .ok kwargs =>
    let p1 := pathJoin model_path "snapshots/"
    match listdir p1 with
    | .error e => .error e
    | .ok entries =>
      match entries with
      | [] => .error .indexError
      | first :: _ =>
        let p2 := pathJoin p1 first
        match loadModelFn p2 kwargs with
        | .error _ => .ok none
        | .ok none => .ok none
        | .ok (some m) => .ok (some (m, decide (device = "cuda" ∧ num_gpus = 1)))

/-- The hosted backend selected by `GPTClient.__init__`, holding the
credentials it read from the environment. -/
inductive Backend
  | azure (key endpoint : String)
  | openaiDirect (key : String)
deriving DecidableEq

/-- The state of a constructed `GPTClient`: `client` is `none` when the
constructor's `if`/`elif` chain matched neither flag and therefore never
assigned `self.client`. -/
structure GPTClientState where
  client : Option Backend
deriving DecidableEq

/-- Embedding of `GPTClient.__init__` (`src/utils/model_utils.py`, lines
14-25).  `env` models `os.environ` (missing keys raise `KeyError`). -/
def gptClientInit (env : String → Option String) (client : String) :
    Except PyErr GPTClientState :=
  if pyLower client = "azure" then
    match env "AZURE_OPENAI_API_KEY", env "AZURE_OPENAI_ENDPOINT" with
    | some k, some e => .ok ⟨some (.azure k e)⟩
    | _, _ => .error .keyError
  else if pyLower client = "openai" then
    match env "OPENAI_API_KEY" with
    | some k => .ok ⟨some (.openaiDirect k)⟩
    | none => .error .keyError
  else .ok ⟨none⟩

/-- The request parameters assembled by `GPTClient.get_completion`
(`src/utils/model_utils.py`, lines 27-53); `tools` is included only when
truthy. -/
structure CompletionParams where
  model : String
  messages : List (String × String)
  max_tokens : Option Nat
  temperature : ℚ
  stop : Option String
  seed : Nat
  logprobs : Option Bool
  top_logprobs : Option Nat
  tools : Option (List String)
deriving DecidableEq

/-- Embedding of `GPTClient.get_completion`: accessing `self.client` on a state
whose constructor assigned no client raises `AttributeError`; otherwise the
call is delegated to the hosted endpoint, modelled by `callApi`. -/
def get_completion (st : GPTClientState) (callApi : Backend → CompletionParams → String)
    (messages : List (String × String)) (modelName : String) (max_tokens : Option Nat)
    (temperature : ℚ) (stop : Option String) (seed : Nat) (tools : Option (List String))
    (logprobs : Option Bool) (top_logprobs : Option Nat) : Except PyErr String :=
  let ps : CompletionParams :=
    { model := modelName, messages := messages, max_tokens := max_tokens
      temperature := temperature, stop := stop, seed := seed
      logprobs := logprobs, top_logprobs := top_logprobs
      tools := match tools with
        | some ts => if ts = [] then none else some ts
        | none => none }
  match st.client with
  | none => .error .attributeError
  | some b => .ok (callApi b ps)

/-- The value of the single shared `result_params` dict after the last
mutation of the concrete two-sub-question run used below. -/
def demoLastRow : ResultsRow :=
  { demoRow with
      task_name := "t"
      model := "m"
      question_id := "q7_1"
      permuted_answer := "B"
      model_answer := "D"
      model_explanation := "e1"
      probabilities := [("B", 1)] }

/-- Setting the same key twice with the same value is one set. -/
theorem dictSet_idem (d : List (String × ℚ)) (k : String) (v : ℚ) :
    dictSet (dictSet d k v) k v = dictSet d k v := by
  induction d with
  | nil => simp [dictSet]
  | cons p rest ih =>
    by_cases h : p.1 = k
    · simp [dictSet, h]
    · simp [dictSet, h, ih]

/-- A set key is found, with the set value. -/
theorem alookup_dictSet_self (d : List (String × ℚ)) (k : String) (v : ℚ) :
    alookup (dictSet d k v) k = some v := by
  induction d with
  | nil => simp [dictSet, alookup]
  | cons p rest ih =>
    by_cases h : p.1 = k
    · simp [dictSet, h, alookup]
    · simp [dictSet, h, alookup, ih]

/-- Dict assignment never removes a key. -/
theorem alookup_dictSet_isSome (d : List (String × ℚ)) (k k' : String) (v : ℚ)
    (h : (alookup d k').isSome) : (alookup (dictSet d k v) k').isSome := by
  induction d with
  | nil => simp [alookup] at h
  | cons p rest ih =>
    by_cases hp : p.1 = k
    · rw [dictSet, if_pos hp]
      by_cases hk : k = k'
      · simp [alookup, hk]
      · rw [alookup, if_neg hk]
        rw [alookup, if_neg (by rw [hp]; exact hk)] at h
        exact h
    · rw [dictSet, if_neg hp]
      by_cases hk : p.1 = k'
      · simp [alookup, hk]
      · rw [alookup, if_neg hk]
        rw [alookup, if_neg hk] at h
        exact ih h

/-- Every entry of `dictSet d k v` is the new entry or an old one. -/
theorem mem_dictSet {d : List (String × ℚ)} {k : String} {v : ℚ} {p : String × ℚ}
    (h : p ∈ dictSet d k v) : p = (k, v) ∨ p ∈ d := by
  induction d with
  | nil => simpa [dictSet] using h
  | cons q rest ih =>
    by_cases hq : q.1 = k
    · simp [dictSet, hq] at h
      rcases h with h | h
      · exact Or.inl h
      · exact Or.inr (by simp [h])
    · simp [dictSet, hq] at h
      rcases h with h | h
      · exact Or.inr (by simp [h])
      · rcases ih h with h' | h'
        · exact Or.inl h'
        · exact Or.inr (by simp [h'])

/-- The inner loop of the scan performs a single assignment under the
candidate's token when some valid token matches, and nothing otherwise. -/
theorem innerAssign_eq (valids : List String) (c : Cand) (out : List (String × ℚ)) :
    innerAssign valids c out =
      if candMatches valids c then dictSet out c.token c.logprob else out := by
  induction valids generalizing out with
  | nil => simp [innerAssign, candMatches]
  | cons vt rest ih =>
    by_cases h : pyStartsWith vt (pyUpper c.token) = true
    · have hstep : innerAssign (vt :: rest) c out =
          innerAssign rest c (dictSet out c.token c.logprob) := by
        simp [innerAssign, h]
      rw [hstep, ih]
      have hAll : candMatches (vt :: rest) c = true := by
        simp [candMatches, List.any_cons, h]
      by_cases hm : candMatches rest c = true
      · rw [if_pos hm, if_pos hAll, dictSet_idem]
      · rw [if_neg hm, if_pos hAll]
    · have hstep : innerAssign (vt :: rest) c out = innerAssign rest c out := by
        simp [innerAssign, h]
      rw [hstep, ih]
      have hmm : candMatches (vt :: rest) c = candMatches rest c := by
        simp [candMatches, List.any_cons, h]
      rw [hmm]

/-- The scan consumes at most all candidates. -/
theorem answerScan_consumed_le (valids : List String) (cands : List Cand)
    (out : List (String × ℚ)) : (answerScan valids cands out).2 ≤ cands.length := by
  induction cands generalizing out with
  | nil => simp [answerScan]
  | cons c rest ih =>
    simp only [answerScan]
    by_cases hb : (innerAssign valids c out).length = valids.length
    · simp [hb]
    · simpa [hb] using Nat.succ_le_succ (ih (innerAssign valids c out))

/-- When the scan stops before exhausting the candidates, it is because the
accumulator's entry count equals the number of valid tokens. -/
theorem answerScan_break (valids : List String) (cands : List Cand)
    (out : List (String × ℚ)) (h : (answerScan valids cands out).2 < cands.length) :
    (answerScan valids cands out).1.length = valids.length := by
  induction cands generalizing out with
  | nil => simp [answerScan] at h
  | cons c rest ih =>
    simp only [answerScan] at h ⊢
    by_cases hb : (innerAssign valids c out).length = valids.length
    · rw [if_pos hb]
      exact hb
    · simp only [hb, if_false, List.length_cons] at h ⊢
      exact ih (innerAssign valids c out) (by omega)

/-- Keys already present in the accumulator survive the scan. -/
theorem answerScan_keys_mono (valids : List String) (cands : List Cand)
    (out : List (String × ℚ)) (k : String) (h : (alookup out k).isSome) :
    (alookup (answerScan valids cands out).1 k).isSome := by
  induction cands generalizing out with
  | nil => simpa [answerScan] using h
  | cons c rest ih =>
    have hout' : (alookup (innerAssign valids c out) k).isSome := by
      rw [innerAssign_eq]
      by_cases hm : candMatches valids c = true
      · simpa [hm] using alookup_dictSet_isSome out c.token k c.logprob h
      · simpa [hm] using h
    simp only [answerScan]
    by_cases hb : (innerAssign valids c out).length = valids.length
    · simpa [hb] using hout'
    · simpa [hb] using ih (innerAssign valids c out) hout'

/-- Every entry of the final accumulator is an initial entry or the token and
logprob of a matching candidate among the consumed ones. -/
theorem answerScan_mem (valids : List String) (cands : List Cand)
    (out : List (String × ℚ)) (p : String × ℚ)
    (hp : p ∈ (answerScan valids cands out).1) :
    p ∈ out ∨ ∃ c ∈ cands.take (answerScan valids cands out).2,
      c.token = p.1 ∧ c.logprob = p.2 ∧ candMatches valids c = true := by
  induction cands generalizing out with
  | nil =>
    simp only [answerScan] at hp
    exact Or.inl hp
  | cons c rest ih =>
    have hmem : ∀ q, q ∈ innerAssign valids c out →
        q ∈ out ∨ (q = (c.token, c.logprob) ∧ candMatches valids c = true) := by
      intro q hq
      rw [innerAssign_eq] at hq
      by_cases hm : candMatches valids c = true
      · rw [if_pos hm] at hq
        rcases mem_dictSet hq with h' | h'
        · exact Or.inr ⟨h', hm⟩
        · exact Or.inl h'
      · rw [if_neg hm] at hq
        exact Or.inl hq
    simp only [answerScan] at hp ⊢
    by_cases hb : (innerAssign valids c out).length = valids.length
    · simp only [hb, if_true] at hp ⊢
      rcases hmem p hp with h' | ⟨h', hm⟩
      · exact Or.inl h'
      · exact Or.inr ⟨c, by simp, by simp [h'], by simp [h'], hm⟩
    · simp only [hb, if_false] at hp ⊢
      rcases ih (innerAssign valids c out) hp with h' | ⟨c', hc', h1, h2, h3⟩
      · rcases hmem p h' with h'' | ⟨h'', hm⟩
        · exact Or.inl h''
        · exact Or.inr ⟨c, by simp, by simp [h''], by simp [h''], hm⟩
      · exact Or.inr ⟨c', by simpa using Or.inr hc', h1, h2, h3⟩

/-- Every matching candidate among the consumed ones has an entry (under its
own token) in the final accumulator. -/
theorem answerScan_matched_covered (valids : List String) (cands : List Cand)
    (out : List (String × ℚ)) (c : Cand)
    (hc : c ∈ cands.take (answerScan valids cands out).2)
    (hm : candMatches valids c = true) :
    (alookup (answerScan valids cands out).1 c.token).isSome := by
  induction cands generalizing out with
  | nil => simp [answerScan] at hc
  | cons c0 rest ih =>
    simp only [answerScan] at hc ⊢
    by_cases hb : (innerAssign valids c0 out).length = valids.length
    · rw [if_pos hb] at hc ⊢
      simp only [List.take_succ_cons, List.take_zero, List.mem_singleton] at hc
      subst hc
      rw [innerAssign_eq, if_pos hm]
      simp [alookup_dictSet_self]
    · rw [if_neg hb] at hc ⊢
      simp only [List.take_succ_cons] at hc
      rcases List.mem_cons.mp hc with rfl | hc'
      · refine answerScan_keys_mono valids rest (innerAssign valids c out) c.token ?_
        rw [innerAssign_eq, if_pos hm]
        simp [alookup_dictSet_self]
      · exact ih (innerAssign valids c0 out) hc'

/-- A scan in which no candidate matches any valid token leaves the
accumulator empty. -/
theorem answerScan_no_match (valids : List String) (cands : List Cand)
    (h : ∀ c ∈ cands, candMatches valids c = false) :
    (answerScan valids cands []).1 = [] := by
  induction cands with
  | nil => simp [answerScan]
  | cons c rest ih =>
    have hc : candMatches valids c = false := h c (by simp)
    have hout' : innerAssign valids c [] = [] := by
      rw [innerAssign_eq]
      simp [hc]
    simp only [answerScan, hout', List.length_nil]
    by_cases hb : 0 = valids.length
    · rw [if_pos hb]
    · rw [if_neg hb]
      exact ih (fun c' hc' => h c' (by simp [hc']))

/-- C1: the results list comprehension of `eval_models` passes the single
shared `result_params` dict to every `create_results_dict` call, and
`create_results_dict` mutates that dict in place (`results = params`) instead
of copying it, so the collected "records" are k references to one dict.  At
the concrete failing input (two answered sub-questions with distinct answers
"C"/"D" and ids `q7_0`/`q7_1`), the two materialized rows are identical and
both carry the second sub-question's id, permuted answer, model answer,
explanation and distribution — contradicting the claim that the record for
sub-question 0 carries `question_id` "q7_0" with its own answer "C". -/
theorem c1_results_rows_alias_last_subquestion :
    materializeRows (buildResultsRefs demoScores "t" "m" "q7" ["A", "B"] ["C", "D"]
        ["e0", "e1"] [[("A", 1)], [("B", 1)]] [] 0 (fun _ => demoRow)) =
      [demoLastRow, demoLastRow] ∧
    demoLastRow.question_id = "q7_1" ∧ demoLastRow.model_answer = "D" ∧
    demoLastRow.question_id ≠ "q7_0" ∧ demoLastRow.model_answer ≠ "C" := by
  refine ⟨?_, rfl, rfl, by decide, by decide⟩
  norm_num [materializeRows, buildResultsRefs, create_results_dict, storeSet, demoScores,
    demoRow, demoLastRow, List.range_succ]
  rfl

/-- C2 (counterexample): with valid tokens `["A", "B"]` and candidates
`"a"`, `"A"`, `"B"` (in that order), the scan of `GPTClient.get_answer` keys
the accumulator by candidate token — `"a"`, which is not a valid token, gets
an entry — and breaks after two of the three candidates because the *entry
count* reached the number of valid tokens, even though valid token `"B"`
never received a value and a matching candidate (`"B"`) was still unscanned.
This falsifies "accumulates into a per-valid-token accumulator" and "stops
early exactly when every valid token has received a value". -/
theorem c2_counterexample_break_without_coverage :
    answerScanRun ["A", "B"] [⟨"a", -1⟩, ⟨"A", -2⟩, ⟨"B", -3⟩] =
      ([("a", -1), ("A", -2)], 2) ∧
    alookup (answerScanRun ["A", "B"] [⟨"a", -1⟩, ⟨"A", -2⟩, ⟨"B", -3⟩]).1 "B" = none ∧
    candMatches ["A", "B"] ⟨"B", -3⟩ = true ∧
    ("a" ∈ ["A", "B"]) = False := by
  refine ⟨by rfl, by rfl, by rfl, by simp⟩

/-- C2 (amended): scanning the first generated token's top-logprob candidates
in order, every entry of the accumulator is the token and value of a matching
candidate among the scanned ones (so candidates matching no valid option are
ignored, and the accumulator is keyed by the candidate's own token, not by
the valid token); every scanned matching candidate has an entry under its own
token; and the scan stops before exhausting the candidates only when the
number of accumulator entries equals the number of valid tokens. -/
theorem c2_scan_amended (valids : List String) (cands : List Cand) :
    (∀ p ∈ (answerScanRun valids cands).1,
        ∃ c ∈ cands.take (answerScanRun valids cands).2,
          c.token = p.1 ∧ c.logprob = p.2 ∧ candMatches valids c = true) ∧
    (∀ c ∈ cands.take (answerScanRun valids cands).2, candMatches valids c = true →
        (alookup (answerScanRun valids cands).1 c.token).isSome) ∧
    ((answerScanRun valids cands).2 < cands.length →
        (answerScanRun valids cands).1.length = valids.length) ∧
    (answerScanRun valids cands).2 ≤ cands.length := by
  refine ⟨?_, ?_, ?_, ?_⟩
  · intro p hp
    rcases answerScan_mem valids cands [] p hp with h | h
    · simp at h
    · exact h
  · intro c hc hm
    exact answerScan_matched_covered valids cands [] c hc hm
  · exact answerScan_break valids cands []
  · exact answerScan_consumed_le valids cands []

/-- C2 (witness): the amended characterization applied at one concrete input:
the scanned matching candidate `"x"` has an entry under its own token. -/
theorem c2_scan_amended_witness :
    (alookup (answerScanRun ["A", "B", "C"] [⟨"a", -4⟩]).1 "a").isSome = true := by
  refine (c2_scan_amended ["A", "B", "C"] [⟨"a", -4⟩]).2.1 ⟨"a", -4⟩ ?_ ?_
  · have h2 : (answerScanRun ["A", "B", "C"] [⟨"a", -4⟩]).2 = 1 := by rfl
    rw [h2]
    simp
  · rfl

/-- C3 (counterexample): a `get_answer` call in which no top-logprob candidate
matches any valid option token does not return normally: the accumulator
stays empty and Python's `max` over the empty mapping raises `ValueError`
(there is no returned default entry and no selected token). -/
theorem c3_counterexample_no_match_raises :
    get_answer ["A", "B"] [⟨"Z", -1⟩] = .error .valueError ∧
    candMatches ["A", "B"] ⟨"Z", -1⟩ = false := by
  exact ⟨by rfl, by rfl⟩

/-- C3 (amended): for every call of `GPTClient.get_answer` in which no
top-logprob candidate matches any valid option token, the accumulator is
empty after the scan and the call raises `ValueError` at
`max(output, key=output.get)` instead of returning a zero-valued default
entry with a selected token. -/
theorem c3_amended_no_match_error (valids : List String) (cands : List Cand)
    (h : ∀ c ∈ cands, candMatches valids c = false) :
    get_answer valids cands = .error .valueError := by
  have hempty : (answerScanRun valids cands).1 = [] :=
    answerScan_no_match valids cands h
  simp only [get_answer, answerScanRun] at *
  rw [hempty]
  rfl

/-- C3 (witness): the amended theorem applied at one concrete non-matching
input. -/
theorem c3_amended_witness :
    get_answer ["A", "B"] [⟨"Q", -5⟩, ⟨"9", -6⟩] = .error .valueError := by
  refine c3_amended_no_match_error ["A", "B"] [⟨"Q", -5⟩, ⟨"9", -6⟩] ?_
  intro c hc
  simp only [List.mem_cons, List.mem_singleton, List.not_mem_nil, or_false] at hc
  rcases hc with rfl | rfl
  · rfl
  · rfl

/-- The branch chain of `get_response` has no case for question type
"mc-separate" (the `NOTE` at line 70 of `src/utils/inference_utils.py`), so
the loop leaves outputs, parsed results and the call trace unchanged. -/
theorem respGo_mc_separate
    (answerO : List String → List (String × String) → String × List (String × ℚ))
    (explO : List (String × String) → String)
    (parseR : String → List (List String) → Nat → String × String)
    (recon : String → List String → List String → String → List (String × String))
    (pfx chatType : String) (opts : List (List String)) (allQs : List String) :
    ∀ (qs : List String) (i : Nat) (outs : List String) (parsed : List PRec)
      (calls : List ClientCall),
      respGo answerO explO parseR recon pfx chatType "mc-separate" opts allQs
        i qs outs parsed calls = (parsed, outs, calls) := by
  intro qs
  induction qs with
  | nil =>
    intro i outs parsed calls
    rfl
  | cons q rest ih =>
    intro i outs parsed calls
    simp only [respGo]
    rw [if_neg (by decide), if_neg (by decide),
      if_neg (fun hK => absurd hK.2 (by decide)),
      if_neg (fun hK => absurd hK.2 (by decide))]
    exact ih (i + 1) outs parsed calls

/-- C4: for question type "mc-separate" the hosted-API entry point
`get_response` issues no backend client call and parses no record, so its
return value (`np.array([]).T.tolist()`) contains no per-question entries —
even though "mc-separate" is one of the question types of the orchestrator's
default parameter grid. -/
theorem c4_mc_separate_no_calls_no_records
    (answerO : List String → List (String × String) → String × List (String × ℚ))
    (explO : List (String × String) → String)
    (parseR : String → List (List String) → Nat → String × String)
    (recon : String → List String → List String → String → List (String × String))
    (pfx chatType : String) (opts : List (List String)) (qs : List String) :
    getResponseResult answerO explO parseR recon pfx chatType "mc-separate" opts qs = [] ∧
    getResponseCalls answerO explO parseR recon pfx chatType "mc-separate" opts qs = [] ∧
    "mc-separate" ∈ default_question_types := by
  refine ⟨?_, ?_, by decide⟩
  · unfold getResponseResult getResponseParsed
    rw [respGo_mc_separate]
    rfl
  · unfold getResponseCalls
    rw [respGo_mc_separate]

/-- C5: over a four-question run in a sequential mode, both response engines
emit exactly two results records, produced at indices 1 and 3, and the record
of each odd index pairs the free-text output recorded at the preceding even
index with the constrained answer and probability distribution obtained at
the odd index itself. -/
theorem c5_sequential_four_questions_two_records
    (qt : String) (hqt : qt = "sequential-hidden" ∨ qt = "sequential-shown")
    (answerO : List String → List (String × String) → String × List (String × ℚ))
    (explO : List (String × String) → String)
    (parseR : String → List (List String) → Nat → String × String)
    (hfM : String → String → List String → String × List (String × ℚ))
    (hfE : String → String) (fal : String → String)
    (gep : List (String × String) → String → List String → String × List (String × ℚ))
    (appendQ : List (String × String) → String → String → String)
    (recon : String → List String → List String → String → List (String × String))
    (pfx chatType : String) (opts : List (List String)) (q0 q1 q2 q3 : String) :
    (getResponseParsed answerO explO parseR recon pfx chatType qt opts [q0, q1, q2, q3] =
      (let c0 := appendToCtx (recon pfx [] [] chatType) q0
       let e0 := explO c0
       let c1 := appendToCtx (recon pfx [q0] [e0] chatType) q1
       let r1 := answerO ((get_option_letters opts).getD 0 []) c1
       let c2 := appendToCtx (recon pfx [q0, q1] [e0, r1.1] chatType) q2
       let e2 := explO c2
       let c3 := appendToCtx (recon pfx [q0, q1, q2] [e0, r1.1, e2] chatType) q3
       let r3 := answerO ((get_option_letters opts).getD 1 []) c3
       [⟨e0, r1.1, r1.2⟩, ⟨e2, r3.1, r3.2⟩])) ∧
    (getResponseHfParsed hfM hfE fal gep appendQ recon pfx chatType qt opts
        [q0, q1, q2, q3] =
      (let p0 := appendQ (recon pfx [] [] chatType) q0 chatType
       let e0 := hfE p0
       let p1 := appendQ (recon pfx [q0] [e0] chatType) q1 chatType
       let r1 := hfM "mc" p1 (opts.getD 1 [])
       let p2 := appendQ (recon pfx [q0, q1] [e0, r1.1] chatType) q2 chatType
       let e2 := hfE p2
       let p3 := appendQ (recon pfx [q0, q1, q2] [e0, r1.1, e2] chatType) q3 chatType
       let r3 := hfM "mc" p3 (opts.getD 3 [])
       [⟨e0, r1.1, r1.2⟩, ⟨e2, r3.1, r3.2⟩])) := by
  rcases hqt with rfl | rfl
  · exact ⟨rfl, rfl⟩
  · exact ⟨rfl, rfl⟩

/-- C5 (witness): the four-question sequential run evaluated with concrete
oracles: both engines produce exactly the two records. -/
theorem c5_witness :
    getResponseParsed (fun _ _ => ("A", [("A", 1)])) (fun _ => "E")
        (fun _ _ _ => ("", "")) (fun _ _ _ _ => [("system", "S")]) "P" "chat"
        "sequential-hidden" [["o1", "o2"], ["p1"], [], []] ["q0", "q1", "q2", "q3"] =
      [⟨"E", "A", [("A", 1)]⟩, ⟨"E", "A", [("A", 1)]⟩] ∧
    getResponseHfParsed (fun _ _ _ => ("A", [])) (fun _ => "E") (fun _ => "X")
        (fun _ _ _ => ("", [])) (fun _ q _ => q) (fun _ _ _ _ => [("system", "S")])
        "P" "chat" "sequential-hidden" [["o1", "o2"], ["p1"], [], []]
        ["q0", "q1", "q2", "q3"] =
      [⟨"E", "A", []⟩, ⟨"E", "A", []⟩] := by
  have h := c5_sequential_four_questions_two_records "sequential-hidden" (Or.inl rfl)
    (fun _ _ => ("A", [("A", 1)])) (fun _ => "E") (fun _ _ _ => ("", ""))
    (fun _ _ _ => ("A", [])) (fun _ => "E") (fun _ => "X") (fun _ _ _ => ("", []))
    (fun _ q _ => q) (fun _ _ _ _ => [("system", "S")]) "P" "chat"
    [["o1", "o2"], ["p1"], [], []] "q0" "q1" "q2" "q3"
  exact ⟨h.1.trans rfl, h.2.trans rfl⟩

/-- C9 (counterexample): on a concrete two-question sequential run whose two
questions have different option counts, the hosted entry point's odd-step
answer call is restricted to the option letters of question `i // 2 = 0`
(two letters, `top_logprobs = 4`), while the local entry point's odd-step
answer call receives the options of question `i = 1` (three options): the two
entry points do not restrict the answer to the same question's options, and
the hosted restriction differs from the letters of the question at index 1. -/
theorem c9_counterexample_option_index_mismatch :
    getResponseCalls (fun _ _ => ("A", [])) (fun _ => "E") (fun _ _ _ => ("", ""))
        (fun _ _ _ _ => [("system", "S")]) "P" "chat" "sequential-hidden"
        [["x", "y"], ["x", "y", "z"]] ["q0", "q1"] =
      [.explanation [("system", "S\nq0")],
       .answer ["A", "B"] [("system", "S\nq1")] 4] ∧
    getResponseHfCalls (fun _ _ _ => ("A", [])) (fun _ => "E") (fun _ => "X")
        (fun _ _ _ => ("", [])) (fun _ q _ => q) (fun _ _ _ _ => [("system", "S")])
        "P" "chat" "sequential-hidden" [["x", "y"], ["x", "y", "z"]] ["q0", "q1"] =
      [.explCall "q0", .mcCall "mc" "q1" ["x", "y", "z"]] ∧
    (get_option_letters [["x", "y"], ["x", "y", "z"]]).getD 1 [] = ["A", "B", "C"] ∧
    ["A", "B"] ≠ ["A", "B", "C"] := by
  refine ⟨by rfl, by rfl, by rfl, by decide⟩

/-- C9 (amended): the two entry points share the same control structure, but
at the odd indices of a sequential run the hosted entry point restricts the
constrained answer to the option letters of question `i // 2` (indices 0 and
1 over four questions, with `top_logprobs` taken from the same entries),
while the local entry point uses the options of question `i` itself (indices
1 and 3); they agree only when those option entries coincide. -/
theorem c9_amended_sequential_option_indices
    (qt : String) (hqt : qt = "sequential-hidden" ∨ qt = "sequential-shown")
    (answerO : List String → List (String × String) → String × List (String × ℚ))
    (explO : List (String × String) → String)
    (parseR : String → List (List String) → Nat → String × String)
    (hfM : String → String → List String → String × List (String × ℚ))
    (hfE : String → String) (fal : String → String)
    (gep : List (String × String) → String → List String → String × List (String × ℚ))
    (appendQ : List (String × String) → String → String → String)
    (recon : String → List String → List String → String → List (String × String))
    (pfx chatType : String) (opts : List (List String)) (q0 q1 q2 q3 : String) :
    (getResponseCalls answerO explO parseR recon pfx chatType qt opts [q0, q1, q2, q3] =
      (let c0 := appendToCtx (recon pfx [] [] chatType) q0
       let e0 := explO c0
       let c1 := appendToCtx (recon pfx [q0] [e0] chatType) q1
       let r1 := answerO ((get_option_letters opts).getD 0 []) c1
       let c2 := appendToCtx (recon pfx [q0, q1] [e0, r1.1] chatType) q2
       let e2 := explO c2
       let c3 := appendToCtx (recon pfx [q0, q1, q2] [e0, r1.1, e2] chatType) q3
       [.explanation c0,
        .answer ((get_option_letters opts).getD 0 []) c1 ((opts.getD 0 []).length * 2),
        .explanation c2,
        .answer ((get_option_letters opts).getD 1 []) c3 ((opts.getD 1 []).length * 2)])) ∧
    (getResponseHfCalls hfM hfE fal gep appendQ recon pfx chatType qt opts
        [q0, q1, q2, q3] =
      (let p0 := appendQ (recon pfx [] [] chatType) q0 chatType
       let e0 := hfE p0
       let p1 := appendQ (recon pfx [q0] [e0] chatType) q1 chatType
       let r1 := hfM "mc" p1 (opts.getD 1 [])
       let p2 := appendQ (recon pfx [q0, q1] [e0, r1.1] chatType) q2 chatType
       let e2 := hfE p2
       let p3 := appendQ (recon pfx [q0, q1, q2] [e0, r1.1, e2] chatType) q3 chatType
       [.explCall p0, .mcCall "mc" p1 (opts.getD 1 []),
        .explCall p2, .mcCall "mc" p3 (opts.getD 3 [])])) := by
  rcases hqt with rfl | rfl
  · exact ⟨rfl, rfl⟩
  · exact ⟨rfl, rfl⟩

/-- C9 (witness): the amended call-trace characterization evaluated at one
concrete sequential-shown run. -/
theorem c9_amended_witness :
    getResponseCalls (fun _ _ => ("B", [])) (fun _ => "W") (fun _ _ _ => ("", ""))
        (fun _ _ _ _ => [("system", "T")]) "P" "chat" "sequential-shown"
        [["u"], ["u", "v"], ["u"], ["u", "v", "w"]] ["a0", "a1", "a2", "a3"] =
      [.explanation [("system", "T\na0")],
       .answer ["A"] [("system", "T\na1")] 2,
       .explanation [("system", "T\na2")],
       .answer ["A", "B"] [("system", "T\na3")] 4] ∧
    getResponseHfCalls (fun _ _ _ => ("B", [])) (fun _ => "W") (fun _ => "X")
        (fun _ _ _ => ("", [])) (fun _ q _ => q) (fun _ _ _ _ => [("system", "T")])
        "P" "chat" "sequential-shown" [["u"], ["u", "v"], ["u"], ["u", "v", "w"]]
        ["a0", "a1", "a2", "a3"] =
      [.explCall "a0", .mcCall "mc" "a1" ["u", "v"],
       .explCall "a2", .mcCall "mc" "a3" ["u", "v", "w"]] := by
  have h := c9_amended_sequential_option_indices "sequential-shown" (Or.inr rfl)
    (fun _ _ => ("B", [])) (fun _ => "W") (fun _ _ _ => ("", ""))
    (fun _ _ _ => ("B", [])) (fun _ => "W") (fun _ => "X") (fun _ _ _ => ("", []))
    (fun _ q _ => q) (fun _ _ _ _ => [("system", "T")]) "P" "chat"
    [["u"], ["u", "v"], ["u"], ["u", "v", "w"]] "a0" "a1" "a2" "a3"
  exact ⟨h.1.trans rfl, h.2.trans rfl⟩

/-- Unrolling of the backoff loop when every attempt fails: the budget is used
up one invocation at a time, each failed attempt `k` (0-based) sleeps
`base * 2 ^ (k + 1) + u k` (the source increments `retries` before computing
the delay) and logs its failure line, and the final failure line closes the
log. -/
theorem backoffAux_all_fail {α : Type} (f : Nat → Except String α) (base : ℚ)
    (u : Nat → ℚ) (hf : ∀ k, (f k).isOk = false) :
    ∀ (r k0 : Nat), backoffAux f base u r k0 =
      (none, r,
        (List.range r).map (fun j => base * 2 ^ (k0 + j + 1) + u (k0 + j)),
        ((List.range r).map (fun j => attemptFailMsg (k0 + j) (exceptErr (f (k0 + j))))) ++
          ["Max retries reached, operation failed."]) := by
  intro r
  induction r with
  | zero =>
    intro k0
    simp [backoffAux]
  | succ r ih =>
    intro k0
    obtain ⟨e, he⟩ : ∃ e, f k0 = .error e := by
      cases hfk : f k0 with
      | ok v =>
        have hco := hf k0
        rw [hfk] at hco
        simp [Except.isOk, Except.toBool] at hco
      | error e => exact ⟨e, rfl⟩
    have herr : exceptErr (f k0) = e := by rw [he]; rfl
    simp only [backoffAux, he, ih (k0 + 1)]
    have hshift1 :
        (List.range (r + 1)).map (fun j => base * 2 ^ (k0 + j + 1) + u (k0 + j)) =
          (base * 2 ^ (k0 + 1) + u k0) ::
            (List.range r).map (fun j => base * 2 ^ (k0 + 1 + j + 1) + u (k0 + 1 + j)) := by
      rw [List.range_succ_eq_map, List.map_cons, List.map_map]
      refine congrArg₂ List.cons (by norm_num) ?_
      refine List.map_congr_left ?_
      intro j _
      have h1 : k0 + (j + 1) + 1 = k0 + 1 + j + 1 := by omega
      have h2 : k0 + (j + 1) = k0 + 1 + j := by omega
      simp only [Function.comp_apply, h1, h2]
    have hshift2 :
        (List.range (r + 1)).map
            (fun j => attemptFailMsg (k0 + j) (exceptErr (f (k0 + j)))) =
          attemptFailMsg k0 (exceptErr (f k0)) ::
            (List.range r).map
              (fun j => attemptFailMsg (k0 + 1 + j) (exceptErr (f (k0 + 1 + j)))) := by
      rw [List.range_succ_eq_map, List.map_cons, List.map_map]
      refine congrArg₂ List.cons (by norm_num) ?_
      refine List.map_congr_left ?_
      intro j _
      have h2 : k0 + (j + 1) = k0 + 1 + j := by omega
      simp only [Function.comp_apply, h2]
    rw [hshift1, hshift2, herr]
    simp

/-- C6: a function wrapped by
`exponential_backoff_decorator(max_retries, base_delay)` that fails on every
call is invoked exactly `max_retries` times; after each failed attempt the
wrapper sleeps `base_delay * 2 ^ retries + uniform(0, 1)` seconds (with
`retries` already incremented, i.e. `base_delay * 2 ^ (k + 1) + u k` after the
0-based attempt `k`), logs the attempt; after the last failure it logs the
final failure message and returns no result (`none`) without propagating any
exception. -/
theorem c6_backoff_exhausts_retries {α : Type} (max_retries : Nat) (base_delay : ℚ)
    (f : Nat → Except String α) (u : Nat → ℚ) (hf : ∀ k, (f k).isOk = false) :
    exponential_backoff_run max_retries base_delay f u =
      (none, max_retries,
        (List.range max_retries).map (fun k => base_delay * 2 ^ (k + 1) + u k),
        ((List.range max_retries).map
            (fun k => attemptFailMsg k (exceptErr (f k)))) ++
          ["Max retries reached, operation failed."]) := by
  have h := backoffAux_all_fail f base_delay u hf max_retries 0
  simpa [exponential_backoff_run] using h

/-- C6 (witness): a wrapped call failing three allowed times: three
invocations, sleeps `2, 4, 8` (base 1, zero jitter), the three attempt logs
and the final failure line, and no result. -/
theorem c6_backoff_witness :
    exponential_backoff_run (α := Nat) 3 1 (fun _ => .error "boom") (fun _ => 0) =
      (none, 3, [2, 4, 8],
        ["Attempt 1 failed: boom", "Attempt 2 failed: boom", "Attempt 3 failed: boom",
         "Max retries reached, operation failed."]) := by
  have h := c6_backoff_exhausts_retries (α := Nat) 3 1 (fun _ => .error "boom")
    (fun _ => 0) (fun _ => rfl)
  refine h.trans ?_
  norm_num [List.range_succ, attemptFailMsg, exceptErr]
  exact ⟨rfl, rfl, rfl⟩

/-- C7 (counterexample): `build_kwargs("cuda", 0, None)` requests zero devices
— not more than one — yet the guard `num_gpus != 1` fires and multi-device
placement is set ("sequential" device map with an empty memory table), so
"exactly when more than one device is requested" is false at this input. -/
theorem c7_counterexample_zero_devices :
    build_kwargs "cuda" 0 none (fun _ => 0) =
      .ok { torch_dtype := .float16, device_map := some "sequential",
            max_memory := some [] } ∧
    ¬ 1 < 0 := by
  exact ⟨by rfl, by decide⟩

/-- C7 (amended): `build_kwargs("cpu", n)` yields 32-bit weights and no device
map for every `n` (and any cap argument); `build_kwargs("cuda", ...)` yields
16-bit weights and sets multi-device placement exactly when the requested
device count differs from 1 (including 0): "sequential" placement with each
device `i` capped at `int(free_i * 0.85)` GiB when no cap is given, and the
same explicit cap applied uniformly to every device (with "auto" placement)
when one is given; any other device string is rejected with a `ValueError`. -/
theorem c7_build_kwargs_amended :
    (∀ (n : Nat) (mem : Option String) (g : Nat → ℚ),
        build_kwargs "cpu" n mem g = .ok ⟨.float32, none, none⟩) ∧
    (∀ (mem : Option String) (g : Nat → ℚ),
        build_kwargs "cuda" 1 mem g = .ok ⟨.float16, none, none⟩) ∧
    (∀ (n : Nat) (g : Nat → ℚ), n ≠ 1 →
        build_kwargs "cuda" n none g =
          .ok ⟨.float16, some "sequential",
            some ((List.range n).map
              (fun i => (i, toString (pyInt (g i * (85 / 100))) ++ "GiB")))⟩) ∧
    (∀ (n : Nat) (m : String) (g : Nat → ℚ), n ≠ 1 →
        build_kwargs "cuda" n (some m) g =
          .ok ⟨.float16, some "auto", some ((List.range n).map (fun i => (i, m)))⟩) ∧
    (∀ (d : String) (n : Nat) (mem : Option String) (g : Nat → ℚ),
        d ≠ "cpu" → d ≠ "cuda" →
        build_kwargs d n mem g = .error (.other ("Invalid device: " ++ d))) := by
  refine ⟨?_, ?_, ?_, ?_, ?_⟩
  · intro n mem g
    rfl
  · intro mem g
    rfl
  · intro n g hn
    simp only [build_kwargs, if_true]
    rw [if_pos hn, if_neg (by decide)]
  · intro n m g hn
    simp only [build_kwargs, if_true]
    rw [if_pos hn, if_neg (by decide)]
  · intro d n mem g h1 h2
    simp only [build_kwargs]
    rw [if_neg h1, if_neg h2]

/-- C7 (witness): the amended characterization evaluated at concrete inputs:
two accelerator devices with 2 GiB free each and no explicit cap get
"sequential" placement with uniform `int(2 * 0.85) = 1` GiB caps, and three
devices with an explicit cap get that cap uniformly. -/
theorem c7_build_kwargs_witness :
    build_kwargs "cuda" 2 none (fun _ => 2) =
      .ok { torch_dtype := .float16, device_map := some "sequential",
            max_memory := some [(0, "1GiB"), (1, "1GiB")] } ∧
    build_kwargs "cuda" 3 (some "10GiB") (fun _ => 0) =
      .ok { torch_dtype := .float16, device_map := some "auto",
            max_memory := some [(0, "10GiB"), (1, "10GiB"), (2, "10GiB")] } := by
  constructor
  · have h := c7_build_kwargs_amended.2.2.1 2 (fun _ => 2) (by decide)
    refine h.trans ?_
    simp only [pyInt, List.range_succ]
    norm_num
    rfl
  · have h := c7_build_kwargs_amended.2.2.2.1 3 "10GiB" (fun _ => 0) (by decide)
    refine h.trans ?_
    simp [List.range_succ]

/-- C8 (counterexample): an exception raised while resolving the model path's
`snapshots` subdirectory (here: `os.listdir` raising because the directory
does not exist) happens *before* the `try` block of `load_model_tokenizer`
and therefore propagates to the caller instead of being surfaced as the
`(False, False)` pair. -/
theorem c8_counterexample_snapshot_error_propagates :
    load_model_tokenizer Unit (fun _ => .error .fileNotFoundError)
        (fun _ _ => .ok (some ())) (fun _ => 0) "m" "cuda" 1 none =
      .error .fileNotFoundError ∧
    (Except.error .fileNotFoundError :
        Except PyErr (Option (Unit × Bool))) ≠ .ok none := by
  exact ⟨by rfl, fun h => Except.noConfusion h⟩

/-- C8 (amended): exceptions raised by the loading call inside the `try` block
of `load_model_tokenizer` are caught and surfaced as the false/false pair,
but exceptions raised while resolving the `snapshots` subdirectory occur
before the `try` block and propagate to the caller. -/
theorem c8_amended_catch_boundary :
    (∀ (α : Type) (listdir : String → Except PyErr (List String))
        (loadModelFn : String → Kwargs → Except PyErr (Option α)) (gpuMem : Nat → ℚ)
        (mp dev : String) (n : Nat) (mem : Option String) (kw : Kwargs)
        (first : String) (entries : List String) (e : PyErr),
        build_kwargs dev n mem gpuMem = .ok kw →
        listdir (pathJoin mp "snapshots/") = .ok (first :: entries) →
        loadModelFn (pathJoin (pathJoin mp "snapshots/") first) kw = .error e →
        load_model_tokenizer α listdir loadModelFn gpuMem mp dev n mem = .ok none) ∧
    (∀ (α : Type) (listdir : String → Except PyErr (List String))
        (loadModelFn : String → Kwargs → Except PyErr (Option α)) (gpuMem : Nat → ℚ)
        (mp dev : String) (n : Nat) (mem : Option String) (kw : Kwargs) (e : PyErr),
        build_kwargs dev n mem gpuMem = .ok kw →
        listdir (pathJoin mp "snapshots/") = .error e →
        load_model_tokenizer α listdir loadModelFn gpuMem mp dev n mem = .error e) := by
  constructor
  · intro α listdir loadModelFn gpuMem mp dev n mem kw first entries e h1 h2 h3
    simp only [load_model_tokenizer, h1, h2, h3]
  · intro α listdir loadModelFn gpuMem mp dev n mem kw e h1 h2
    simp only [load_model_tokenizer, h1, h2]

/-- C8 (witness): the catch boundary evaluated concretely: a loading failure
inside the `try` block is surfaced as `(False, False)`. -/
theorem c8_amended_witness :
    load_model_tokenizer Unit (fun _ => .ok ["snap"])
        (fun _ _ => .error (.other "boom")) (fun _ => 0) "m" "cuda" 1 none =
      .ok none := by
  exact c8_amended_catch_boundary.1 Unit (fun _ => .ok ["snap"])
    (fun _ _ => .error (.other "boom")) (fun _ => 0) "m" "cuda" 1 none
    ⟨.float16, none, none⟩ "snap" [] (.other "boom") rfl rfl rfl

/-- C10: for every construction flag that is neither "azure" nor "openai"
(case-insensitively), the `GPTClient` constructor completes without raising
but never assigns `self.client`, so the configuration error surfaces only
when the first completion call touches the missing attribute and fails with
`AttributeError`. -/
theorem c10_unknown_flag_no_client (env : String → Option String) (flag : String)
    (hf1 : pyLower flag ≠ "azure") (hf2 : pyLower flag ≠ "openai")
    (callApi : Backend → CompletionParams → String)
    (messages : List (String × String)) (modelName : String) (max_tokens : Option Nat)
    (temperature : ℚ) (stop : Option String) (seed : Nat) (tools : Option (List String))
    (logprobs : Option Bool) (top_logprobs : Option Nat) :
    gptClientInit env flag = .ok ⟨none⟩ ∧
    get_completion ⟨none⟩ callApi messages modelName max_tokens temperature stop seed
      tools logprobs top_logprobs = .error .attributeError := by
  constructor
  · simp only [gptClientInit, if_neg hf1, if_neg hf2]
  · rfl

/-- C10 (witness): construction with the unknown flag "bedrock" succeeds with
no client assigned, and the first completion call fails with
`AttributeError`. -/
theorem c10_unknown_flag_witness :
    gptClientInit (fun _ => none) "bedrock" = .ok ⟨none⟩ ∧
    get_completion ⟨none⟩ (fun _ _ => "r") [("user", "hi")] "gpt-4" (some 500) 0 none
      123 none none none = .error .attributeError := by
  exact c10_unknown_flag_no_client (fun _ => none) "bedrock" (by decide) (by decide)
    (fun _ _ => "r") [("user", "hi")] "gpt-4" (some 500) 0 none 123 none none none
